import Mathlib

/-!
# Verification of the robotframework debug-adapter debugger core

Shallow embedding of `robotframework_debug_adapter/debugger_impl.py`:
the breakpoint table, the stepping decision made in `before_run_step`,
the call-hierarchy deque maintained by the listener hooks, the stack
snapshot built by `_create_stack_info` on a pause, the evaluation
bridge (`_EvaluationInfo` / `evaluate` / the drain inside
`wait_suspended`), and `reset`.

Conventions of the embedding:
* Python dicts become association lists (`alookup` / `assocSet` /
  `assocRemove` model lookup, key assignment and `pop`); insertion
  order is preserved like CPython dicts.
* The `collections.deque` used for the live call-entry chain becomes a
  `List` whose *last* element is the innermost (most recently pushed)
  entry; `append` is `++ [x]` and `pop` (right pop) is `dropLast`.
* The module-level `next_id = partial(next, itertools.count(1))`
  counter becomes an explicit `counter : Nat` field threaded through
  the state; it starts at 1 and is never reset.
* Futures become a ghost `fulfilled` log: fulfilling a request's
  future once appends `(request, outcome)` to the log.
* The blocking `wait()`/`proceed()` monitor is modelled by feeding the
  worker's pause loop the (serialized) list of controller actions that
  occur during the pause; each action corresponds to one `proceed()`
  and hence one wake of the worker.
-/

namespace RobotDebugger

/-- Association-list lookup (Python `dict.get`). -/
def alookup {α β : Type} [DecidableEq α] : List (α × β) → α → Option β
  | [], _ => none
  | (k', v) :: rest, k => if k' = k then some v else alookup rest k

/-- Association-list key assignment (Python `d[k] = v`): replaces the
first binding of `k` in place, appends when absent. -/
def assocSet {α β : Type} [DecidableEq α] : List (α × β) → α → β → List (α × β)
  | [], k, v => [(k, v)]
  | (k', v') :: rest, k, v =>
    if k' = k then (k, v) :: rest else (k', v') :: assocSet rest k v

/-- Association-list key removal (Python `d.pop(k)`). -/
def assocRemove {α β : Type} [DecidableEq α] (l : List (α × β)) (k : α) : List (α × β) :=
  l.filter (fun p => decide (p.1 ≠ k))

/-- `STATE_RUNNING` / `STATE_PAUSED` from `constants`. -/
inductive RunState
  | running
  | paused
deriving DecidableEq, Repr

/-- `REASON_BREAKPOINT` / `REASON_STEP` from `constants`. -/
inductive StopReason
  | breakpoint
  | step
deriving DecidableEq, Repr

/-- The step commands `STEP_IN` / `STEP_NEXT` / `STEP_OUT`; the Python
`_step_cmd` field holds one of these or `None` (set by
`step_continue`), so the state stores an `Option StepCmd`. -/
inductive StepCmd
  | step_in
  | step_next
  | step_out
deriving DecidableEq, Repr

/-- Modelled from the spec: the external path normalizer
(`file_utils.get_abs_path_real_path_and_base_from_file(...)[1]` /
`norm_file_to_client`, not under src/). `set_breakpoints` and
`before_run_step` apply the same normalization to both sides of every
comparison, so it is modelled as the identity on source identifiers. -/
def norm_source (p : String) : String := p

/-- Modelled from the spec: external `SafeRepr` ("rendering must not
raise — any rendering failure yields a placeholder value"); modelled
as the identity rendering of an already-textual value, which is total
by construction. -/
def safe_repr (s : String) : String := s

/-- Modelled from the spec: `MAIN_THREAD_ID` from `constants` (not
under src/); an arbitrary fixed thread identifier. -/
def MAIN_THREAD_ID : Nat := 1

/-- A variable store (`ctx.variables.current` / `info.variables.store`):
name → rendered value. -/
def VarStore : Type := List (String × String)

instance : DecidableEq VarStore := by unfold VarStore; infer_instance

/-- A keyword/step object as the debugger reads it: `str(keyword)`,
`keyword.lineno`, `keyword.source`, `keyword.args`. `lineno`/`source`
are `Option`s: `none` models a missing attribute (`AttributeError`)
or a `None` value. -/
structure Keyword where
  name : String
  lineno : Option Nat
  source : Option String
  args : List String
deriving DecidableEq, Repr

/-- `_StepEntry` / `_SuiteEntry` / `_TestEntry`. -/
inductive StackEntry
  | stepEntry (vars : VarStore) (keyword : Keyword)
  | suiteEntry (name : String) (source : Option String)
  | testEntry (name : String) (source : Option String) (lineno : Nat)
deriving DecidableEq

/-- The DAP `StackFrame` fields the debugger core fills in
(`dap_schema.StackFrame(frame_id, name=..., line=..., column=0,
source=...)`); `source` holds the path. -/
structure DAPFrame where
  id : Nat
  name : String
  line : Nat
  source : String
deriving DecidableEq, Repr

/-- The DAP `Scope` fields the debugger core fills in. -/
structure Scope where
  name : String
  variablesReference : Nat
deriving DecidableEq, Repr

/-- The DAP `Variable` fields the debugger core fills in. -/
structure Variable where
  name : String
  value : String
  variablesReference : Nat
deriving DecidableEq, Repr

/-- The deferred children of a variables reference: `_ArgsAsDAP` or
`_VariablesAsDAP`. -/
inductive VarChildren
  | argsAsDAP (args : List String)
  | variablesAsDAP (vars : VarStore)
deriving DecidableEq

/-- `_ArgsAsDAP.compute_as_dap` / `_VariablesAsDAP.compute_as_dap`. -/
def VarChildren.compute_as_dap : VarChildren → List Variable
  | .argsAsDAP args =>
    args.enum.map (fun p => ⟨"Arg " ++ toString p.1, safe_repr p.2, 0⟩)
  | .variablesAsDAP vars =>
    vars.map (fun p => ⟨safe_repr p.1, safe_repr p.2, 0⟩)

/-- `_SuiteFrameInfo` / `_TestFrameInfo` / `_KeywordFrameInfo`; the
keyword variant carries the lazily cached `_scopes`. -/
inductive FrameInfo
  | suite
  | test
  | keyword (kw : Keyword) (vars : VarStore) (cached_scopes : Option (List Scope))
deriving DecidableEq

/-- `_StackInfo`: the snapshot built once per pause. -/
structure StackInfo where
  dap_frames : List DAPFrame
  frame_id_to_frame_info : List (Nat × FrameInfo)
  ref_id_to_children : List (Nat × VarChildren)
deriving DecidableEq

/-- The empty `_StackInfo()`. -/
def StackInfo.empty : StackInfo := ⟨[], [], []⟩

/-- `str(keyword).strip()`, falling back to the class name when empty. -/
def str_keyword (kw : Keyword) : String :=
  let n := kw.name.trim
  if n = "" then "Keyword" else n

/-- `keyword.lineno or 1` (Python `or`: both `None` and `0` fall back). -/
def lineno_or_one (l : Option Nat) : Nat :=
  match l with
  | none => 1
  | some 0 => 1
  | some n => n

/-- `_StackInfo.add_keyword_entry_stack`, with the global id counter
threaded explicitly. -/
def StackInfo.add_keyword_entry_stack (si : StackInfo) (c : Nat) (kw : Keyword)
    (filename : String) (vars : VarStore) : StackInfo × Nat :=
  let frame_id := c
  let dap_frame : DAPFrame := ⟨frame_id, str_keyword kw, lineno_or_one kw.lineno, filename⟩
  ({ si with
      dap_frames := si.dap_frames ++ [dap_frame],
      frame_id_to_frame_info :=
        si.frame_id_to_frame_info ++ [(frame_id, FrameInfo.keyword kw vars none)] },
   c + 1)

/-- `_StackInfo.add_suite_entry_stack`. -/
def StackInfo.add_suite_entry_stack (si : StackInfo) (c : Nat) (name : String)
    (filename : String) : StackInfo × Nat :=
  let frame_id := c
  let dap_frame : DAPFrame := ⟨frame_id, name, 1, filename⟩
  ({ si with
      dap_frames := si.dap_frames ++ [dap_frame],
      frame_id_to_frame_info :=
        si.frame_id_to_frame_info ++ [(frame_id, FrameInfo.suite)] },
   c + 1)

/-- `_StackInfo.add_test_entry_stack`. -/
def StackInfo.add_test_entry_stack (si : StackInfo) (c : Nat) (name : String)
    (filename : String) (lineno : Nat) : StackInfo × Nat :=
  let frame_id := c
  let dap_frame : DAPFrame := ⟨frame_id, name, lineno, filename⟩
  ({ si with
      dap_frames := si.dap_frames ++ [dap_frame],
      frame_id_to_frame_info :=
        si.frame_id_to_frame_info ++ [(frame_id, FrameInfo.test)] },
   c + 1)

/-- `_KeywordFrameInfo.get_scopes` dispatched through
`_StackInfo.get_scopes` (the `_BaseFrameInfo` virtual call): suite and
test frames yield `[]`; a keyword frame lazily allocates the two
variables references (Arguments first, then Variables, both from the
global counter), registers their deferred children and caches the
scope list. Unknown frame ids yield `none`. -/
def StackInfo.get_scopes_impl (si : StackInfo) (c : Nat) (fid : Nat) :
    Option (List Scope) × StackInfo × Nat :=
  match alookup si.frame_id_to_frame_info fid with
  | none => (none, si, c)
  | some FrameInfo.suite => (some [], si, c)
  | some FrameInfo.test => (some [], si, c)
  | some (FrameInfo.keyword kw vars cached) =>
    match cached with
    | some scopes => (some scopes, si, c)
    | none =>
      let locals_variables_reference := c
      let vars_variables_reference := c + 1
      let scopes : List Scope :=
        [⟨"Variables", vars_variables_reference⟩,
         ⟨"Arguments", locals_variables_reference⟩]
      let si' : StackInfo :=
        { si with
            ref_id_to_children :=
              si.ref_id_to_children ++
                [(locals_variables_reference, VarChildren.argsAsDAP kw.args),
                 (vars_variables_reference, VarChildren.variablesAsDAP vars)],
            frame_id_to_frame_info :=
              assocSet si.frame_id_to_frame_info fid
                (FrameInfo.keyword kw vars (some scopes)) }
      (some scopes, si', c + 2)

/-- `_StackInfo.get_variables`. -/
def StackInfo.get_variables (si : StackInfo) (ref : Nat) : Option (List Variable) :=
  (alookup si.ref_id_to_children ref).map VarChildren.compute_as_dap

/-- `_EvaluationInfo` sans the future object (the ghost `fulfilled`
log plays that role). -/
structure EvalRequest where
  frame_id : Nat
  expression : String
deriving DecidableEq, Repr

/-- The exception classes raised by `_do_eval` and caught by
`_EvaluationInfo.evaluate`; `external` stands for an exception raised
by the host interpreter's `run_keyword` machinery. -/
inductive EvalError
  | invalidFrameId
  | invalidFrameType
  | unableToEvaluate
  | external (msg : String)
deriving DecidableEq, Repr

/-- The whole mutable state of `_RobotDebuggerImpl`, plus the
module-level id `counter` and the ghost `fulfilled` log of future
fulfillments. `busy_proceeded` is `BusyWait.proceeded`. -/
structure DebuggerState where
  counter : Nat
  fulfilled : List (EvalRequest × Except EvalError String)
  breakpoints : List (String × List Nat)
  busy_proceeded : Nat
  run_state : RunState
  step_cmd : Option StepCmd
  reason : Option StopReason
  stack_ctx_entries : List StackEntry
  stop_on_stack_len : Nat
  tid_to_stack_list : List (Nat × StackInfo)
  frame_id_to_tid : List (Nat × Nat)
  evaluations : List EvalRequest
  skip_breakpoints : Nat

/-- `_RobotDebuggerImpl.reset`: every per-session field is rebuilt
fresh (including a fresh `BusyWait`); the module-level id counter and
already-fulfilled futures are untouched. -/
def reset (s : DebuggerState) : DebuggerState :=
  { counter := s.counter
    fulfilled := s.fulfilled
    breakpoints := []
    busy_proceeded := 0
    run_state := RunState.running
    step_cmd := none
    reason := none
    stack_ctx_entries := []
    stop_on_stack_len := 0
    tid_to_stack_list := []
    frame_id_to_tid := []
    evaluations := []
    skip_breakpoints := 0 }

/-- `_RobotDebuggerImpl.__init__` (which just calls `reset`), with the
module-level counter at its initial value `1`. -/
def initial_state : DebuggerState :=
  reset
    { counter := 1, fulfilled := [], breakpoints := [], busy_proceeded := 0,
      run_state := RunState.running, step_cmd := none, reason := none,
      stack_ctx_entries := [], stop_on_stack_len := 0, tid_to_stack_list := [],
      frame_id_to_tid := [], evaluations := [], skip_breakpoints := 0 }

/-- `_RobotDebuggerImpl.set_breakpoints`: normalizes the filename and
replaces that source's whole line table. -/
def set_breakpoints (s : DebuggerState) (filename : String) (bps : List Nat) :
    DebuggerState :=
  { s with breakpoints := assocSet s.breakpoints (norm_source filename) bps }

/-- Python truthiness of `lines and step.lineno in lines`: an absent
or empty per-source dict never matches. -/
def lines_hit (lines : Option (List Nat)) (lineno : Nat) : Bool :=
  match lines with
  | some ls => !ls.isEmpty && ls.contains lineno
  | none => false

/-- The breakpoint lookup `before_run_step` performs against the
table, as a standalone predicate. -/
def is_breakpoint (s : DebuggerState) (source : String) (lineno : Nat) : Bool :=
  lines_hit (alookup s.breakpoints source) lineno

/-- `_RobotDebuggerImpl.get_frames`. -/
def get_frames (s : DebuggerState) (thread_id : Nat) : Option (List DAPFrame) :=
  (alookup s.tid_to_stack_list thread_id).map StackInfo.dap_frames

/-- `_RobotDebuggerImpl.get_scopes`: frame id → thread id → stack
info → the frame's scopes; any missing link yields `none` and leaves
the state untouched. The keyword branch mutates the stored snapshot
(lazy allocation), so the updated state is returned alongside. -/
def get_scopes (s : DebuggerState) (fid : Nat) :
    Option (List Scope) × DebuggerState :=
  match alookup s.frame_id_to_tid fid with
  | none => (none, s)
  | some tid =>
    match alookup s.tid_to_stack_list tid with
    | none => (none, s)
    | some si =>
      let r := si.get_scopes_impl s.counter fid
      (r.1, { s with counter := r.2.2,
                     tid_to_stack_list := assocSet s.tid_to_stack_list tid r.2.1 })

/-- Inner loop of `_RobotDebuggerImpl.get_variables` over
`self._tid_to_stack_list.values()` in insertion order. -/
def find_variables : List (Nat × StackInfo) → Nat → Option (List Variable)
  | [], _ => none
  | (_, si) :: rest, ref =>
    match si.get_variables ref with
    | some v => some v
    | none => find_variables rest ref

/-- `_RobotDebuggerImpl.get_variables`. -/
def get_variables (s : DebuggerState) (ref : Nat) : Option (List Variable) :=
  find_variables s.tid_to_stack_list ref

/-- `_RobotDebuggerImpl._get_filename(obj, msg)`: `obj.source` is
`None` → the literal string `"None"`, else the normalized path. -/
def get_filename (source : Option String) : String :=
  match source with
  | none => "None"
  | some src => norm_source src

/-- The body of the `for entry in reversed(self._stack_ctx_entries_deque)`
loop in `_create_stack_info`: entries are walked innermost-first, and
the loop-carried `keyword` local is the keyword of the most recent
step entry already walked (the suite/test branches read that local —
not the entry's own source — when computing the filename; if no step
entry has been walked yet, the resulting `NameError` is caught by the
surrounding `except` and the frame is skipped). -/
def build_entries : List StackEntry → Option Keyword → StackInfo → Nat →
    StackInfo × Nat
  | [], _, si, c => (si, c)
  | StackEntry.stepEntry vars kw :: rest, _, si, c =>
    let filename := get_filename kw.source
    let r := si.add_keyword_entry_stack c kw filename vars
    build_entries rest (some kw) r.1 r.2
  | StackEntry.suiteEntry name _src :: rest, okw, si, c =>
    match okw with
    | none => build_entries rest none si c
    | some kw =>
      let filename := get_filename kw.source
      let r := si.add_suite_entry_stack c ("TestSuite: " ++ name) filename
      build_entries rest (some kw) r.1 r.2
  | StackEntry.testEntry name _src lineno :: rest, okw, si, c =>
    match okw with
    | none => build_entries rest none si c
    | some kw =>
      let filename := get_filename kw.source
      let r := si.add_test_entry_stack c ("TestCase: " ++ name) filename lineno
      build_entries rest (some kw) r.1 r.2

/-- `_RobotDebuggerImpl._create_stack_info(thread_id)`. -/
def create_stack_info (s : DebuggerState) (thread_id : Nat) : DebuggerState :=
  let r := build_entries s.stack_ctx_entries.reverse none StackInfo.empty s.counter
  { s with
      counter := r.2,
      frame_id_to_tid :=
        r.1.dap_frames.foldl (fun m f => assocSet m f.id thread_id) s.frame_id_to_tid,
      tid_to_stack_list := assocSet s.tid_to_stack_list thread_id r.1 }

/-- `_RobotDebuggerImpl._dispose_stack_info(thread_id)`: pops the
snapshot and unregisters its frame ids. (A missing thread id would be
a `KeyError` in Python; it is unreachable from `wait_suspended`, which
always creates the snapshot first, and is modelled as a no-op.) -/
def dispose_stack_info (s : DebuggerState) (thread_id : Nat) : DebuggerState :=
  match alookup s.tid_to_stack_list thread_id with
  | none => s
  | some si =>
    { s with
        tid_to_stack_list := assocRemove s.tid_to_stack_list thread_id,
        frame_id_to_tid :=
          si.dap_frames.foldl (fun m f => assocRemove m f.id) s.frame_id_to_tid }

/-- Modelled from the spec: `is_variable_text` from
`robotframework_ls.impl.text_utilities` (not under src/) — "the
expression syntactically matches a bare reference to a value
(scalar/collection lookup)", i.e. text of the shape `${...}`, `@{...}`,
`&{...}` or `%{...}`. -/
def is_variable_text (text : String) : Bool :=
  match text.toList with
  | c0 :: c1 :: rest =>
    (c0 == '$' || c0 == '@' || c0 == '&' || c0 == '%') &&
      c1 == Char.ofNat 123 && rest ≠ [] && rest.getLast! == Char.ofNat 125
  | _ => false

/-- The host interpreter machinery `_do_eval` calls out to:
`robot.api.get_model` + `ast_utils.iter_keyword_usage_tokens`
(summarized as `parse_keyword_usage`, yielding the keyword name and
argument tokens when the expression parses as exactly one keyword
usage) and `BuiltIn().run_keyword` (which may raise — the `.error`
side). Both live outside this core, per the spec's §6 interface
boundary, so they are parameters of the embedding. -/
structure RobotEnv where
  parse_keyword_usage : String → Option (String × List String)
  run_keyword : String → List String → Except String String

/-- `_EvaluationInfo._do_eval`, over the two maps it reads
(`_frame_id_to_tid` composed with `_tid_to_stack_list`, then the
snapshot's own tables). -/
def do_eval (env : RobotEnv) (fmap : List (Nat × Nat))
    (tmap : List (Nat × StackInfo)) (fid : Nat) (expression : String) :
    Except EvalError String :=
  match (alookup fmap fid).bind (fun tid => alookup tmap tid) with
  | none => Except.error EvalError.invalidFrameId
  | some stack_info =>
    match alookup stack_info.frame_id_to_frame_info fid with
    | none => Except.error EvalError.invalidFrameId
    | some FrameInfo.suite => Except.error EvalError.invalidFrameType
    | some FrameInfo.test => Except.error EvalError.invalidFrameType
    | some (FrameInfo.keyword _kw vars _cached) =>
      let variable_store : VarStore := vars
      let keyword_call : Except EvalError String :=
        match env.parse_keyword_usage expression with
        | some nameArgs =>
          match stack_info.dap_frames with
          | [] => Except.error EvalError.unableToEvaluate
          | top :: _ =>
            if top.id ≠ fid then Except.error EvalError.unableToEvaluate
            else
              match env.run_keyword nameArgs.1 nameArgs.2 with
              | Except.ok v => Except.ok v
              | Except.error msg => Except.error (EvalError.external msg)
        | none => Except.error EvalError.unableToEvaluate
      if is_variable_text expression then
        match alookup variable_store ((expression.drop 2).dropRight 1) with
        | some value => Except.ok value
        | none => keyword_call
      else keyword_call

/-- `_EvaluationInfo.evaluate`: runs `_do_eval` and fulfills the
future exactly once — `set_result` on success, `set_exception` on any
failure (nothing propagates into the caller's pause loop). The
`Except` value *is* the fulfillment. -/
def fulfill (env : RobotEnv) (s : DebuggerState) (ev : EvalRequest) :
    Except EvalError String :=
  do_eval env s.frame_id_to_tid s.tid_to_stack_list ev.frame_id ev.expression

/-- One iteration of the drain loop in `wait_suspended`:
`_skip_breakpoints += 1; evaluation.evaluate(self); _skip_breakpoints -= 1`.
The fulfillment is appended to the ghost log. -/
def eval_one (env : RobotEnv) (st : DebuggerState) (ev : EvalRequest) :
    DebuggerState :=
  let st1 := { st with skip_breakpoints := st.skip_breakpoints + 1 }
  let outcome := fulfill env st1 ev
  let st2 := { st1 with fulfilled := st1.fulfilled ++ [(ev, outcome)] }
  { st2 with skip_breakpoints := st2.skip_breakpoints - 1 }

/-- The queue drain at the top of each wake of the pause loop:
`evaluations = self._evaluations; self._evaluations = []`, then each
request is evaluated in submission order. -/
def drain_evaluations (env : RobotEnv) (s : DebuggerState) : DebuggerState :=
  let evals := s.evaluations
  let s' := { s with evaluations := [] }
  evals.foldl (eval_one env) s'

/-- `_RobotDebuggerImpl.evaluate`: appends the request to the queue
and signals `proceed()`; nothing else. -/
def evaluate (s : DebuggerState) (fid : Nat) (expression : String) :
    DebuggerState :=
  let evaluation_info : EvalRequest := ⟨fid, expression⟩
  { s with evaluations := s.evaluations ++ [evaluation_info],
           busy_proceeded := s.busy_proceeded + 1 }

/-- `_RobotDebuggerImpl.step_continue`. -/
def step_continue (s : DebuggerState) : DebuggerState :=
  { s with step_cmd := none, run_state := RunState.running,
           busy_proceeded := s.busy_proceeded + 1 }

/-- `_RobotDebuggerImpl.step_in`. -/
def step_in (s : DebuggerState) : DebuggerState :=
  { s with step_cmd := some StepCmd.step_in, run_state := RunState.running,
           busy_proceeded := s.busy_proceeded + 1 }

/-- `_RobotDebuggerImpl.step_next`. -/
def step_next (s : DebuggerState) : DebuggerState :=
  { s with step_cmd := some StepCmd.step_next, run_state := RunState.running,
           busy_proceeded := s.busy_proceeded + 1 }

/-- `_RobotDebuggerImpl.step_out`. -/
def step_out (s : DebuggerState) : DebuggerState :=
  { s with step_cmd := some StepCmd.step_out, run_state := RunState.running,
           busy_proceeded := s.busy_proceeded + 1 }

/-- A controller-thread call made while the worker sits in the pause
loop; each one ends in `busy_wait.proceed()` and therefore wakes the
worker exactly once. -/
inductive ControllerAction
  | submit_eval (fid : Nat) (expression : String)
  | do_continue
  | do_step_in
  | do_step_next
  | do_step_out
deriving DecidableEq, Repr

/-- Applies the controller call itself. -/
def apply_controller_action (s : DebuggerState) : ControllerAction → DebuggerState
  | ControllerAction.submit_eval fid expression => evaluate s fid expression
  | ControllerAction.do_continue => step_continue s
  | ControllerAction.do_step_in => step_in s
  | ControllerAction.do_step_next => step_next s
  | ControllerAction.do_step_out => step_out s

/-- The worker's `while self._run_state == STATE_PAUSED` loop: each
controller action is one `proceed()`, after which the woken worker
drains the evaluation queue and re-checks the run state (so a resume
wake still drains any queued requests before the loop exits). -/
def pause_loop (env : RobotEnv) (s : DebuggerState) :
    List ControllerAction → DebuggerState
  | [] => s
  | a :: rest =>
    let s1 := apply_controller_action s a
    let s2 := drain_evaluations env s1
    if s2.run_state = RunState.paused then pause_loop env s2 rest else s2

/-- The `stop_on_stack_len` computation after the pause loop exits:
`STEP_NEXT` records the live depth at resume, `STEP_OUT` one less. -/
def compute_stop_on_stack_len (s : DebuggerState) : DebuggerState :=
  match s.step_cmd with
  | some StepCmd.step_next =>
    { s with stop_on_stack_len := s.stack_ctx_entries.length }
  | some StepCmd.step_out =>
    { s with stop_on_stack_len := s.stack_ctx_entries.length - 1 }
  | _ => s

/-- `_RobotDebuggerImpl.wait_suspended(reason)`: build the snapshot,
flip to PAUSED, sit in the pause loop until resumed (serviced by the
given controller actions), compute `stop_on_stack_len` from the
resume command, and dispose the snapshot. -/
def wait_suspended (env : RobotEnv) (s : DebuggerState) (reason : StopReason)
    (acts : List ControllerAction) : DebuggerState :=
  dispose_stack_info
    (compute_stop_on_stack_len
      (pause_loop env
        { create_stack_info s MAIN_THREAD_ID with
            run_state := RunState.paused, reason := some reason } acts))
    MAIN_THREAD_ID

/-- `_RobotDebuggerImpl.before_run_step` up to the pause decision: the
step entry is pushed unconditionally; with `_skip_breakpoints` set, or
with the step object missing `lineno`/`source`, no decision is made;
otherwise breakpoints are checked first, then the active step command.
(The Python method then calls `wait_suspended` when the reason is not
`None`; see `before_run_step_full`.) -/
def before_run_step (s : DebuggerState) (vars : VarStore) (step : Keyword) :
    DebuggerState × Option StopReason :=
  let s1 := { s with
    stack_ctx_entries := s.stack_ctx_entries ++ [StackEntry.stepEntry vars step] }
  let stop_reason : Option StopReason :=
    if s1.skip_breakpoints ≠ 0 then none
    else
      match step.lineno, step.source with
      | some lineno, some src =>
        let source := norm_source src
        let lines := alookup s1.breakpoints source
        if lines_hit lines lineno then some StopReason.breakpoint
        else
          match s1.step_cmd with
          | some StepCmd.step_in => some StopReason.step
          | some StepCmd.step_next =>
            if s1.stack_ctx_entries.length ≤ s1.stop_on_stack_len then
              some StopReason.step
            else none
          | some StepCmd.step_out =>
            if s1.stack_ctx_entries.length ≤ s1.stop_on_stack_len then
              some StopReason.step
            else none
          | none => none
      | _, _ => none
  (s1, stop_reason)

/-- `before_run_step` including the `wait_suspended` call it makes
when the decision is to pause. -/
def before_run_step_full (env : RobotEnv) (s : DebuggerState) (vars : VarStore)
    (step : Keyword) (acts : List ControllerAction) : DebuggerState :=
  match before_run_step s vars step with
  | (s', some reason) => wait_suspended env s' reason acts
  | (s', none) => s'

/-- `_RobotDebuggerImpl.after_run_step`. -/
def after_run_step (s : DebuggerState) : DebuggerState :=
  { s with stack_ctx_entries := s.stack_ctx_entries.dropLast }

/-- `_RobotDebuggerImpl.start_suite`. -/
def start_suite (s : DebuggerState) (name : String) (source : Option String) :
    DebuggerState :=
  { s with stack_ctx_entries :=
      s.stack_ctx_entries ++ [StackEntry.suiteEntry name source] }

/-- `_RobotDebuggerImpl.end_suite`. -/
def end_suite (s : DebuggerState) : DebuggerState :=
  { s with stack_ctx_entries := s.stack_ctx_entries.dropLast }

/-- `_RobotDebuggerImpl.start_test`. -/
def start_test (s : DebuggerState) (name : String) (source : Option String)
    (lineno : Nat) : DebuggerState :=
  { s with stack_ctx_entries :=
      s.stack_ctx_entries ++ [StackEntry.testEntry name source lineno] }

/-- `_RobotDebuggerImpl.end_test`. -/
def end_test (s : DebuggerState) : DebuggerState :=
  { s with stack_ctx_entries := s.stack_ctx_entries.dropLast }

/-- The six listener hook calls the host interpreter makes on the
worker thread. -/
inductive HookEvent
  | beforeStep (vars : VarStore) (step : Keyword)
  | afterStep
  | startSuite (name : String) (source : Option String)
  | endSuite
  | startTest (name : String) (source : Option String) (lineno : Nat)
  | endTest

/-- Dispatches one hook event; only `beforeStep` can produce a pause
decision. -/
def apply_hook_event (s : DebuggerState) : HookEvent →
    DebuggerState × Option StopReason
  | HookEvent.beforeStep vars step => before_run_step s vars step
  | HookEvent.afterStep => (after_run_step s, none)
  | HookEvent.startSuite name source => (start_suite s name source, none)
  | HookEvent.endSuite => (end_suite s, none)
  | HookEvent.startTest name source lineno => (start_test s name source lineno, none)
  | HookEvent.endTest => (end_test s, none)

/-- Runs hook events until the first pause decision (the state at a
pause is the state the decision engine saw, live entry freshly
pushed). -/
def run_events (s : DebuggerState) : List HookEvent →
    DebuggerState × Option StopReason
  | [] => (s, none)
  | e :: es =>
    match apply_hook_event s e with
    | (s', none) => run_events s' es
    | (s', some r) => (s', some r)

/-- The effect of one hook event on the live call-entry deque alone
(the Call-Hierarchy Tracker of the spec): the three enter hooks push,
the three exit hooks pop. -/
def tracker_update (st : List StackEntry) : HookEvent → List StackEntry
  | HookEvent.beforeStep vars step => st ++ [StackEntry.stepEntry vars step]
  | HookEvent.startSuite name source => st ++ [StackEntry.suiteEntry name source]
  | HookEvent.startTest name source lineno =>
    st ++ [StackEntry.testEntry name source lineno]
  | _ => st.dropLast

/-- Folding `tracker_update` over a hook sequence. -/
def tracker_run (st : List StackEntry) (evs : List HookEvent) : List StackEntry :=
  evs.foldl tracker_update st

/-- Whether a hook event is a push (enter) event. -/
def is_push : HookEvent → Bool
  | HookEvent.beforeStep _ _ => true
  | HookEvent.startSuite _ _ => true
  | HookEvent.startTest _ _ _ => true
  | _ => false

/-- Number of push events in a hook sequence. -/
def pushCount (evs : List HookEvent) : Nat := evs.countP is_push

/-- Number of pop events in a hook sequence. -/
def popCount (evs : List HookEvent) : Nat := evs.countP (fun e => !is_push e)

/-- A fixed trivial host-interpreter environment, used to instantiate
theorems on concrete runs. -/
def null_env : RobotEnv := ⟨fun _ => none, fun _ _ => Except.error "external"⟩

/-- Concrete state for the C7 counterexample: a running debugger with
a pending `STEP_NEXT` whose depth condition does not hold. -/
def c7_state : DebuggerState :=
  { initial_state with step_cmd := some StepCmd.step_next }

/-- Concrete step object used by several concrete runs. -/
def c7_kw : Keyword := ⟨"Log", some 7, some "b.src", []⟩

/-- Concrete state for the C10 witness: an evaluation in flight
(`_skip_breakpoints = 1`) with a breakpoint registered at the very
line being stepped. -/
def c10_state : DebuggerState :=
  { set_breakpoints initial_state "b.src" [7] with skip_breakpoints := 1 }

/-- Concrete scenario shared by several witnesses: breakpoint at
("a.src", 5), container and scenario entered, before-step at line 5 of
"a.src". -/
def demo_kw : Keyword := ⟨"Log    message", some 5, some "a.src", ["message"]⟩

/-- The debugger just before the demo before-step event. -/
def demo_state : DebuggerState :=
  start_test (start_suite (set_breakpoints initial_state "a.src" [5])
    "Suite" (some "a.src")) "Test" (some "a.src") 3

/-- The demo debugger state at the instant of the demo pause. -/
def demo_paused : DebuggerState := (before_run_step demo_state [] demo_kw).1

/-- The snapshot built for the demo pause. -/
def demo_snapshot : StackInfo :=
  (build_entries demo_paused.stack_ctx_entries.reverse none StackInfo.empty
    demo_paused.counter).1

/-! ## Association-list lemmas -/

theorem alookup_assocSet_self {α β : Type} [DecidableEq α]
    (l : List (α × β)) (k : α) (v : β) : alookup (assocSet l k v) k = some v := by
  induction l with
  | nil => simp [assocSet, alookup]
  | cons p rest ih =>
    by_cases h : p.1 = k
    · simp [assocSet, h, alookup]
    · simp [assocSet, h, alookup, ih]

theorem alookup_assocRemove_self {α β : Type} [DecidableEq α]
    (l : List (α × β)) (k : α) : alookup (assocRemove l k) k = none := by
  induction l with
  | nil => simp [assocRemove, alookup]
  | cons p rest ih =>
    by_cases h : p.1 = k
    · simpa [assocRemove, h] using ih
    · simpa [assocRemove, alookup, h] using ih

theorem alookup_assocRemove_none {α β : Type} [DecidableEq α]
    (l : List (α × β)) (k' k : α) (h : alookup l k = none) :
    alookup (assocRemove l k') k = none := by
  induction l with
  | nil => simp [assocRemove, alookup]
  | cons p rest ih =>
    by_cases hk : p.1 = k
    · simp [alookup, hk] at h
    · have h' : alookup rest k = none := by simpa [alookup, hk] using h
      by_cases hk' : p.1 = k'
      · simpa [assocRemove, hk'] using ih h'
      · simpa [assocRemove, alookup, hk, hk'] using ih h'

theorem dropLast_append_single {α : Type} (l : List α) (a : α) :
    (l ++ [a]).dropLast = l := by
  simp

/-! ## C9: reset is idempotent -/

/-- C9: calling `reset()` twice in a row leaves the debugger in the
same state as a single call — RunState RUNNING, empty breakpoint
table, no pending step command, no queued evaluations, and an empty
live call-entry sequence. -/
theorem reset_idempotent (s : DebuggerState) :
    reset (reset s) = reset s ∧
    (reset s).run_state = RunState.running ∧
    (reset s).breakpoints = [] ∧
    (reset s).step_cmd = none ∧
    (reset s).evaluations = [] ∧
    (reset s).stack_ctx_entries = [] :=
  ⟨rfl, rfl, rfl, rfl, rfl, rfl⟩

/-! ## C7: the step command is not cleared by the hook event -/

/-- C7 counterexample: processing a before-step hook event does NOT
clear the pending step command — here the whole hook call completes
(no pause is triggered: depth 1 > stop_on_stack_len 0, no breakpoint),
yet the stored step command afterwards is still `STEP_NEXT`, not
`NONE`. -/
theorem step_cmd_survives_hook_event :
    (before_run_step c7_state [] c7_kw).2 = none ∧
    (before_run_step_full null_env c7_state [] c7_kw []).step_cmd
      = some StepCmd.step_next := by
  constructor <;> rfl

/-- C7 amended: the Stepping Decision Engine reads but never clears
the stored step command on a hook event; the command persists until a
controller resume call overwrites it (`step_continue` sets it to NONE,
the three step commands set their own value). -/
theorem step_cmd_cleared_only_by_controller (s : DebuggerState) (vars : VarStore)
    (step : Keyword) :
    ((before_run_step s vars step).1).step_cmd = s.step_cmd ∧
    (step_continue s).step_cmd = none ∧
    (step_in s).step_cmd = some StepCmd.step_in ∧
    (step_next s).step_cmd = some StepCmd.step_next ∧
    (step_out s).step_cmd = some StepCmd.step_out :=
  ⟨rfl, rfl, rfl, rfl, rfl⟩

/-! ## Evaluation drain lemmas -/

theorem fulfill_update_fulfilled (env : RobotEnv) (st : DebuggerState)
    (l : List (EvalRequest × Except EvalError String)) (ev : EvalRequest) :
    fulfill env { st with fulfilled := l } ev = fulfill env st ev := rfl

theorem eval_one_eq (env : RobotEnv) (st : DebuggerState) (ev : EvalRequest) :
    eval_one env st ev =
      { st with fulfilled := st.fulfilled ++ [(ev, fulfill env st ev)] } := by
  simp [eval_one, fulfill]

theorem foldl_eval_one (env : RobotEnv) : ∀ (evals : List EvalRequest)
    (st : DebuggerState),
    evals.foldl (eval_one env) st =
      { st with fulfilled :=
          st.fulfilled ++ evals.map (fun ev => (ev, fulfill env st ev)) }
  | [], st => by simp
  | ev :: rest, st => by
    rw [List.foldl_cons, eval_one_eq, foldl_eval_one env rest]
    simp [fulfill_update_fulfilled]

theorem drain_evaluations_eq (env : RobotEnv) (s : DebuggerState) :
    drain_evaluations env s =
      { s with evaluations := [],
               fulfilled :=
                 s.fulfilled ++ s.evaluations.map (fun ev => (ev, fulfill env s ev)) } := by
  unfold drain_evaluations
  rw [foldl_eval_one]
  rfl

/-! ## C4: evaluation futures -/

/-- C4: draining the queue fulfills every queued request's future
exactly once (the queue is emptied, and the fulfillment log gains
exactly one entry per request, in submission order), the fulfillment
is a total value — an evaluation result or an error — rather than an
exception escaping into the pause loop, and the listed failure shapes
fulfill with the corresponding error: an unknown frame id yields
`invalidFrameId`, a non-keyword frame yields `invalidFrameType`, and a
keyword call against a non-topmost frame yields `unableToEvaluate`. -/
theorem evaluation_futures_fulfilled_in_order (env : RobotEnv) (s : DebuggerState) :
    ((drain_evaluations env s).evaluations = [] ∧
     (drain_evaluations env s).fulfilled =
       s.fulfilled ++ s.evaluations.map (fun ev => (ev, fulfill env s ev))) ∧
    (∀ fid expression, alookup s.frame_id_to_tid fid = none →
      fulfill env s ⟨fid, expression⟩ = Except.error EvalError.invalidFrameId) ∧
    (∀ ev tid si, alookup s.frame_id_to_tid ev.frame_id = some tid →
      alookup s.tid_to_stack_list tid = some si →
      alookup si.frame_id_to_frame_info ev.frame_id = some FrameInfo.suite →
      fulfill env s ev = Except.error EvalError.invalidFrameType) ∧
    (∀ ev tid si kw vars cached nameArgs top rest,
      alookup s.frame_id_to_tid ev.frame_id = some tid →
      alookup s.tid_to_stack_list tid = some si →
      alookup si.frame_id_to_frame_info ev.frame_id
        = some (FrameInfo.keyword kw vars cached) →
      is_variable_text ev.expression = false →
      env.parse_keyword_usage ev.expression = some nameArgs →
      si.dap_frames = top :: rest →
      top.id ≠ ev.frame_id →
      fulfill env s ev = Except.error EvalError.unableToEvaluate) := by
  refine ⟨⟨?_, ?_⟩, ?_, ?_, ?_⟩
  · rw [drain_evaluations_eq]
  · rw [drain_evaluations_eq]
  · intro fid expression h
    simp [fulfill, do_eval, h]
  · intro ev tid si h1 h2 h3
    simp [fulfill, do_eval, h1, h2, h3]
  · intro ev tid si kw vars cached nameArgs top rest h1 h2 h3 h4 h5 h6 h7
    simp [fulfill, do_eval, h1, h2, h3, h4, h5, h6, h7]

/-- C4 witness: a request naming a frame id that resolves nowhere is
fulfilled with `invalidFrameId` (and the drain of an empty queue on a
fresh debugger leaves the queue empty). -/
theorem evaluation_futures_fulfilled_in_order_witness :
    fulfill null_env initial_state ⟨5, "Log    x"⟩
      = Except.error EvalError.invalidFrameId :=
  (evaluation_futures_fulfilled_in_order null_env initial_state).2.1 5 "Log    x" rfl

/-! ## C10: balanced bookkeeping while breakpoints are skipped -/

/-- C10: while `_skip_breakpoints` is positive, a before-step hook
still pushes its entry, the matching after-step hook still pops it
(the depth bookkeeping stays balanced), and no pause decision —
neither breakpoint nor step — is made for any hook event. -/
theorem skip_breakpoints_window_balanced (s : DebuggerState) (vars : VarStore)
    (step : Keyword) (h : 0 < s.skip_breakpoints) :
    (before_run_step s vars step).2 = none ∧
    ((before_run_step s vars step).1).stack_ctx_entries
      = s.stack_ctx_entries ++ [StackEntry.stepEntry vars step] ∧
    (after_run_step (before_run_step s vars step).1).stack_ctx_entries
      = s.stack_ctx_entries ∧
    (∀ e : HookEvent, (apply_hook_event s e).2 = none) := by
  have hne : s.skip_breakpoints ≠ 0 := Nat.pos_iff_ne_zero.mp h
  refine ⟨?_, rfl, ?_, ?_⟩
  · simp [before_run_step, hne]
  · simp [after_run_step, before_run_step]
  · intro e
    cases e with
    | beforeStep v k => simp [apply_hook_event, before_run_step, hne]
    | afterStep => rfl
    | startSuite n src => rfl
    | endSuite => rfl
    | startTest n src l => rfl
    | endTest => rfl

/-- C10 witness: even with a breakpoint at the stepped line, a
before-step event in the skip window makes no pause decision, and the
after-step pop restores the original deque. -/
theorem skip_breakpoints_window_balanced_witness :
    (before_run_step c10_state [] c7_kw).2 = none ∧
    (after_run_step (before_run_step c10_state [] c7_kw).1).stack_ctx_entries
      = c10_state.stack_ctx_entries :=
  ⟨(skip_breakpoints_window_balanced c10_state [] c7_kw (by decide)).1,
   (skip_breakpoints_window_balanced c10_state [] c7_kw (by decide)).2.2.1⟩

/-! ## C8: submitting an evaluation never pauses by itself -/

/-- C8: `evaluate()` only appends the request to the queue and signals
the gate (one `proceed()`): the run state, the pause reason, the live
call-entry deque and the fulfillment log are all untouched — in
particular a RUNNING worker stays RUNNING — and the queued request's
future is resolved (appended to the fulfillment log, in submission
order) only by the pause loop's drain. -/
theorem evaluate_queues_without_pausing (s : DebuggerState) (fid : Nat)
    (expression : String) :
    (evaluate s fid expression).run_state = s.run_state ∧
    (evaluate s fid expression).evaluations = s.evaluations ++ [⟨fid, expression⟩] ∧
    (evaluate s fid expression).fulfilled = s.fulfilled ∧
    (evaluate s fid expression).stack_ctx_entries = s.stack_ctx_entries ∧
    (evaluate s fid expression).reason = s.reason ∧
    (evaluate s fid expression).step_cmd = s.step_cmd ∧
    (evaluate s fid expression).busy_proceeded = s.busy_proceeded + 1 ∧
    ∀ env : RobotEnv,
      (drain_evaluations env (evaluate s fid expression)).fulfilled =
        s.fulfilled ++ (s.evaluations ++ [(⟨fid, expression⟩ : EvalRequest)]).map
          (fun ev => (ev, fulfill env s ev)) := by
  refine ⟨rfl, rfl, rfl, rfl, rfl, rfl, rfl, ?_⟩
  intro env
  rw [drain_evaluations_eq]
  rfl

/-! ## C1: the pause decision order -/

/-- C1: on a before-step hook event processed while breakpoints are
not being skipped, the decision is taken in this fixed order — a
registered breakpoint at the event's (source, line) pauses with reason
BREAKPOINT (even when a step command would also fire); otherwise
`STEP_IN` pauses with reason STEP; otherwise `STEP_NEXT`/`STEP_OUT`
pause with reason STEP exactly when the live depth (entry freshly
pushed) is at most `stop_on_stack_len`; otherwise there is no pause. -/
theorem pause_decision_order (s : DebuggerState) (vars : VarStore) (k : Keyword)
    (src : String) (line : Nat) (hskip : s.skip_breakpoints = 0)
    (hsrc : k.source = some src) (hline : k.lineno = some line) :
    (is_breakpoint s (norm_source src) line = true →
      (before_run_step s vars k).2 = some StopReason.breakpoint) ∧
    (is_breakpoint s (norm_source src) line = false →
      s.step_cmd = some StepCmd.step_in →
      (before_run_step s vars k).2 = some StopReason.step) ∧
    (is_breakpoint s (norm_source src) line = false →
      (s.step_cmd = some StepCmd.step_next ∨ s.step_cmd = some StepCmd.step_out) →
      s.stack_ctx_entries.length + 1 ≤ s.stop_on_stack_len →
      (before_run_step s vars k).2 = some StopReason.step) ∧
    (is_breakpoint s (norm_source src) line = false →
      (s.step_cmd = none ∨
       ((s.step_cmd = some StepCmd.step_next ∨ s.step_cmd = some StepCmd.step_out) ∧
        ¬ s.stack_ctx_entries.length + 1 ≤ s.stop_on_stack_len)) →
      (before_run_step s vars k).2 = none) := by
  refine ⟨?_, ?_, ?_, ?_⟩
  · intro hbp
    simp only [is_breakpoint] at hbp
    simp [before_run_step, hskip, hsrc, hline, hbp]
  · intro hbp hcmd
    simp only [is_breakpoint] at hbp
    simp [before_run_step, hskip, hsrc, hline, hbp, hcmd]
  · intro hbp hcmd hdepth
    simp only [is_breakpoint] at hbp
    rcases hcmd with hcmd | hcmd <;>
      simp [before_run_step, hskip, hsrc, hline, hbp, hcmd, hdepth]
  · intro hbp hcmd
    simp only [is_breakpoint] at hbp
    rcases hcmd with hcmd | ⟨hcmd | hcmd, hdepth⟩
    · simp [before_run_step, hskip, hsrc, hline, hbp, hcmd]
    · simp [before_run_step, hskip, hsrc, hline, hbp, hcmd, hdepth]
    · simp [before_run_step, hskip, hsrc, hline, hbp, hcmd, hdepth]

/-- C1 witness: in the demo scenario the event's line is a registered
breakpoint, so the hook pauses with reason BREAKPOINT — even though a
pending STEP_IN would also fire. -/
theorem pause_decision_order_witness :
    (before_run_step { demo_state with step_cmd := some StepCmd.step_in }
      [] demo_kw).2 = some StopReason.breakpoint :=
  (pause_decision_order { demo_state with step_cmd := some StepCmd.step_in }
      [] demo_kw "a.src" 5 rfl rfl rfl).1 (by decide)

/-! ## C3: depth bookkeeping and snapshot frame count -/

theorem pushCount_cons (e : HookEvent) (l : List HookEvent) :
    pushCount (e :: l) = pushCount l + (if is_push e then 1 else 0) := by
  simp [pushCount, List.countP_cons]

theorem popCount_cons (e : HookEvent) (l : List HookEvent) :
    popCount (e :: l) = popCount l + (if is_push e then 0 else 1) := by
  cases hp : is_push e <;> simp [popCount, List.countP_cons, hp]

theorem tracker_update_push_length (st : List StackEntry) (e : HookEvent)
    (h : is_push e = true) : (tracker_update st e).length = st.length + 1 := by
  cases e <;> simp_all [tracker_update, is_push]

theorem tracker_update_pop_length (st : List StackEntry) (e : HookEvent)
    (h : is_push e = false) : (tracker_update st e).length = st.length - 1 := by
  cases e <;> simp_all [tracker_update, is_push]

theorem tracker_run_length : ∀ (evs : List HookEvent) (st : List StackEntry),
    (∀ p, p <+: evs → popCount p ≤ st.length + pushCount p) →
    (tracker_run st evs).length = st.length + pushCount evs - popCount evs
  | [], st, _ => by simp [tracker_run, pushCount, popCount]
  | e :: rest, st, h => by
    have hstep : tracker_run st (e :: rest) = tracker_run (tracker_update st e) rest := rfl
    have hone := h [e] ⟨rest, rfl⟩
    cases hpush : is_push e with
    | true =>
      have hlen := tracker_update_push_length st e hpush
      have hrest : ∀ p, p <+: rest →
          popCount p ≤ (tracker_update st e).length + pushCount p := by
        intro p hp
        obtain ⟨t, ht⟩ := hp
        have hc := h (e :: p) ⟨t, by simp [ht]⟩
        rw [popCount_cons, pushCount_cons, hpush] at hc
        simp only [if_true] at hc
        omega
      have ih := tracker_run_length rest (tracker_update st e) hrest
      rw [hstep, ih, hlen, pushCount_cons, popCount_cons, hpush]
      simp only [if_true]
      omega
    | false =>
      rw [popCount_cons, pushCount_cons, hpush] at hone
      simp only [if_neg Bool.false_ne_true] at hone
      have hst : 1 ≤ st.length := by simp [popCount, pushCount] at hone; omega
      have hlen := tracker_update_pop_length st e hpush
      have hrest : ∀ p, p <+: rest →
          popCount p ≤ (tracker_update st e).length + pushCount p := by
        intro p hp
        obtain ⟨t, ht⟩ := hp
        have hc := h (e :: p) ⟨t, by simp [ht]⟩
        rw [popCount_cons, pushCount_cons, hpush] at hc
        simp only [if_neg Bool.false_ne_true] at hc
        rw [hlen]
        omega
      have ih := tracker_run_length rest (tracker_update st e) hrest
      rw [hstep, ih, hlen, pushCount_cons, popCount_cons, hpush]
      simp only [if_neg Bool.false_ne_true]
      omega

theorem build_entries_frames_length : ∀ (entries : List StackEntry) (kw0 : Keyword)
    (si : StackInfo) (c : Nat),
    ((build_entries entries (some kw0) si c).1).dap_frames.length
      = si.dap_frames.length + entries.length
  | [], _, si, c => by simp [build_entries]
  | StackEntry.stepEntry v kw :: rest, kw0, si, c => by
    simp only [build_entries]
    rw [build_entries_frames_length rest kw]
    simp [StackInfo.add_keyword_entry_stack]
    omega
  | StackEntry.suiteEntry n src :: rest, kw0, si, c => by
    simp only [build_entries]
    rw [build_entries_frames_length rest kw0]
    simp [StackInfo.add_suite_entry_stack]
    omega
  | StackEntry.testEntry n src l :: rest, kw0, si, c => by
    simp only [build_entries]
    rw [build_entries_frames_length rest kw0]
    simp [StackInfo.add_test_entry_stack]
    omega

theorem create_stack_frames_count (s : DebuggerState) (tid : Nat) (vars : VarStore)
    (kw : Keyword) (init : List StackEntry)
    (h : s.stack_ctx_entries = init ++ [StackEntry.stepEntry vars kw]) :
    (get_frames (create_stack_info s tid) tid).map List.length
      = some s.stack_ctx_entries.length := by
  unfold get_frames create_stack_info
  simp only [h, List.reverse_append, List.reverse_cons, List.reverse_nil,
    List.nil_append, List.singleton_append]
  rw [alookup_assocSet_self]
  simp only [build_entries, Option.map_some']
  congr 1
  rw [build_entries_frames_length init.reverse kw]
  simp [StackInfo.add_keyword_entry_stack, StackInfo.empty]
  omega

/-- C3: the live call-entry depth tracks push/pop hook events exactly
(each hook event's effect on the deque is one push or one pop, and
for every well-nested hook sequence the final depth is pushes minus
pops), and the stack snapshot built at a pause — where the innermost
live entry is always the just-pushed step entry — contains exactly one
frame per live call entry. -/
theorem depth_and_snapshot_frame_count :
    (∀ (s : DebuggerState) (e : HookEvent),
      ((apply_hook_event s e).1).stack_ctx_entries
        = tracker_update s.stack_ctx_entries e) ∧
    (∀ evs : List HookEvent, (∀ p, p <+: evs → popCount p ≤ pushCount p) →
      (tracker_run [] evs).length = pushCount evs - popCount evs) ∧
    (∀ (s : DebuggerState) (tid : Nat) (vars : VarStore) (kw : Keyword)
      (init : List StackEntry),
      s.stack_ctx_entries = init ++ [StackEntry.stepEntry vars kw] →
      (get_frames (create_stack_info s tid) tid).map List.length
        = some s.stack_ctx_entries.length) := by
  refine ⟨?_, ?_, create_stack_frames_count⟩
  · intro s e; cases e <;> rfl
  · intro evs h
    have := tracker_run_length evs [] (by simpa using h)
    simpa using this

/-- C3 witness: entering one container and one scenario and pausing at
a before-step event yields a live depth of 3 and a snapshot of exactly
3 frames (container, scenario, step). -/
theorem depth_and_snapshot_frame_count_witness :
    (get_frames (create_stack_info (before_run_step demo_state [] demo_kw).1
        MAIN_THREAD_ID) MAIN_THREAD_ID).map List.length = some 3 :=
  depth_and_snapshot_frame_count.2.2
    ((before_run_step demo_state [] demo_kw).1) MAIN_THREAD_ID [] demo_kw
    demo_state.stack_ctx_entries rfl

/-! ## C5: frame ids are fresh and strictly increasing -/

theorem frames_inv_extend (fs : List DAPFrame) (c : Nat) (fr : DAPFrame)
    (hfr : fr.id = c)
    (hpw : (fs.map DAPFrame.id).Pairwise (· < ·))
    (hb : ∀ f ∈ fs, f.id < c) :
    (((fs ++ [fr]).map DAPFrame.id).Pairwise (· < ·)) ∧
    (∀ f ∈ fs ++ [fr], f.id < c + 1) := by
  constructor
  · rw [List.map_append, List.pairwise_append]
    refine ⟨hpw, by simp, ?_⟩
    intro a ha b hb'
    simp only [List.map_singleton, List.mem_singleton] at hb'
    simp only [List.mem_map] at ha
    obtain ⟨f, hf, rfl⟩ := ha
    rw [hb', hfr]
    exact hb f hf
  · intro f hf
    rcases List.mem_append.mp hf with hf | hf
    · exact Nat.lt_succ_of_lt (hb f hf)
    · rw [List.mem_singleton.mp hf, hfr]
      exact Nat.lt_succ_self c

theorem build_entries_inv : ∀ (entries : List StackEntry) (okw : Option Keyword)
    (si : StackInfo) (c : Nat),
    (si.dap_frames.map DAPFrame.id).Pairwise (· < ·) →
    (∀ f ∈ si.dap_frames, f.id < c) →
    (c ≤ (build_entries entries okw si c).2 ∧
     ((build_entries entries okw si c).1.dap_frames.map DAPFrame.id).Pairwise (· < ·) ∧
     (∀ f ∈ (build_entries entries okw si c).1.dap_frames,
        f.id < (build_entries entries okw si c).2) ∧
     (∀ f ∈ (build_entries entries okw si c).1.dap_frames,
        f ∈ si.dap_frames ∨ c ≤ f.id))
  | [], okw, si, c, hpw, hb => by
    refine ⟨Nat.le_refl c, hpw, ?_, ?_⟩
    · intro f hf; exact hb f hf
    · intro f hf; exact Or.inl hf
  | StackEntry.stepEntry v kw :: rest, okw, si, c, hpw, hb => by
    have hext := frames_inv_extend si.dap_frames c
      ⟨c, str_keyword kw, lineno_or_one kw.lineno, get_filename kw.source⟩ rfl hpw hb
    have ih := build_entries_inv rest (some kw)
      (si.add_keyword_entry_stack c kw (get_filename kw.source) v).1 (c + 1)
      hext.1 hext.2
    simp only [build_entries]
    refine ⟨Nat.le_trans (Nat.le_succ c) ih.1, ih.2.1, ih.2.2.1, ?_⟩
    intro f hf
    rcases ih.2.2.2 f hf with hmem | hle
    · rcases List.mem_append.mp hmem with hmem | hmem
      · exact Or.inl hmem
      · right
        rw [List.mem_singleton.mp hmem]
    · exact Or.inr (Nat.le_of_succ_le hle)
  | StackEntry.suiteEntry n src :: rest, okw, si, c, hpw, hb => by
    cases okw with
    | none =>
      have ih := build_entries_inv rest none si c hpw hb
      simpa only [build_entries] using ih
    | some kw =>
      have hext := frames_inv_extend si.dap_frames c
        ⟨c, "TestSuite: " ++ n, 1, get_filename kw.source⟩ rfl hpw hb
      have ih := build_entries_inv rest (some kw)
        (si.add_suite_entry_stack c ("TestSuite: " ++ n) (get_filename kw.source)).1
        (c + 1) hext.1 hext.2
      simp only [build_entries]
      refine ⟨Nat.le_trans (Nat.le_succ c) ih.1, ih.2.1, ih.2.2.1, ?_⟩
      intro f hf
      rcases ih.2.2.2 f hf with hmem | hle
      · rcases List.mem_append.mp hmem with hmem | hmem
        · exact Or.inl hmem
        · right
          rw [List.mem_singleton.mp hmem]
      · exact Or.inr (Nat.le_of_succ_le hle)
  | StackEntry.testEntry n src l :: rest, okw, si, c, hpw, hb => by
    cases okw with
    | none =>
      have ih := build_entries_inv rest none si c hpw hb
      simpa only [build_entries] using ih
    | some kw =>
      have hext := frames_inv_extend si.dap_frames c
        ⟨c, "TestCase: " ++ n, l, get_filename kw.source⟩ rfl hpw hb
      have ih := build_entries_inv rest (some kw)
        (si.add_test_entry_stack c ("TestCase: " ++ n) (get_filename kw.source) l).1
        (c + 1) hext.1 hext.2
      simp only [build_entries]
      refine ⟨Nat.le_trans (Nat.le_succ c) ih.1, ih.2.1, ih.2.2.1, ?_⟩
      intro f hf
      rcases ih.2.2.2 f hf with hmem | hle
      · rcases List.mem_append.mp hmem with hmem | hmem
        · exact Or.inl hmem
        · right
          rw [List.mem_singleton.mp hmem]
      · exact Or.inr (Nat.le_of_succ_le hle)

theorem get_scopes_impl_counter_le (si : StackInfo) (c : Nat) (fid : Nat) :
    c ≤ (si.get_scopes_impl c fid).2.2 := by
  rcases h1 : alookup si.frame_id_to_frame_info fid with _ | fi
  · simp [StackInfo.get_scopes_impl, h1]
  · cases fi with
    | suite => simp [StackInfo.get_scopes_impl, h1]
    | test => simp [StackInfo.get_scopes_impl, h1]
    | keyword kw vars cached =>
      cases cached with
      | none => simp [StackInfo.get_scopes_impl, h1]
      | some sc => simp [StackInfo.get_scopes_impl, h1]

theorem get_scopes_counter_le (s : DebuggerState) (fid : Nat) :
    s.counter ≤ ((get_scopes s fid).2).counter := by
  unfold get_scopes
  rcases h1 : alookup s.frame_id_to_tid fid with _ | tid
  · simp [h1]
  · simp only [h1]
    rcases h2 : alookup s.tid_to_stack_list tid with _ | si
    · simp [h2]
    · simp only [h2]
      exact get_scopes_impl_counter_le si s.counter fid

/-- C5: the snapshot builder assigns frame ids in strictly increasing
order from innermost to outermost frame, every id issued by one
snapshot walk lies in the half-open counter interval of that walk
(so ids are never reused across pauses: the global counter never
decreases — neither snapshot building nor the lazy scope allocation
shrink it — and `reset()` leaves it untouched). -/
theorem frame_ids_unique_and_monotone (s : DebuggerState) (tid : Nat) :
    (∀ si, alookup (create_stack_info s tid).tid_to_stack_list tid = some si →
      ((si.dap_frames.map DAPFrame.id).Pairwise (· < ·) ∧
       ∀ f ∈ si.dap_frames,
         s.counter ≤ f.id ∧ f.id < (create_stack_info s tid).counter)) ∧
    s.counter ≤ (create_stack_info s tid).counter ∧
    (∀ fid, s.counter ≤ ((get_scopes s fid).2).counter) ∧
    (reset s).counter = s.counter := by
  have hinv := build_entries_inv s.stack_ctx_entries.reverse none StackInfo.empty
      s.counter (by simp [StackInfo.empty]) (by simp [StackInfo.empty])
  refine ⟨?_, hinv.1, get_scopes_counter_le s, rfl⟩
  intro si hsi
  rw [show (create_stack_info s tid).tid_to_stack_list
      = assocSet s.tid_to_stack_list tid
          (build_entries s.stack_ctx_entries.reverse none StackInfo.empty s.counter).1
      from rfl, alookup_assocSet_self] at hsi
  obtain rfl := (Option.some_inj.mp hsi).symm
  refine ⟨hinv.2.1, ?_⟩
  intro f hf
  refine ⟨?_, hinv.2.2.1 f hf⟩
  rcases hinv.2.2.2 f hf with hmem | hle
  · simp [StackInfo.empty] at hmem
  · exact hle

/-- C5 witness: the snapshot of the demo pause carries strictly
increasing frame ids from innermost to outermost. -/
theorem frame_ids_unique_and_monotone_witness :
    (demo_snapshot.dap_frames.map DAPFrame.id).Pairwise (· < ·) :=
  ((frame_ids_unique_and_monotone demo_paused MAIN_THREAD_ID).1 demo_snapshot rfl).1

/-! ## C6: stale or unknown ids yield None, never an error -/

theorem find_variables_none : ∀ (l : List (Nat × StackInfo)) (ref : Nat),
    (∀ p ∈ l, alookup (p.2).ref_id_to_children ref = none) →
    find_variables l ref = none
  | [], _, _ => rfl
  | (tid, si) :: rest, ref, h => by
    have h0 := h (tid, si) (List.mem_cons_self _ _)
    have hrest := find_variables_none rest ref (fun p hp => h p (List.mem_cons_of_mem _ hp))
    simp [find_variables, StackInfo.get_variables, h0, hrest]

theorem foldl_assocRemove_preserves_none (frames : List DAPFrame)
    (l : List (Nat × Nat)) (k : Nat) (h : alookup l k = none) :
    alookup (frames.foldl (fun m f => assocRemove m f.id) l) k = none := by
  induction frames generalizing l with
  | nil => exact h
  | cons f rest ih => exact ih _ (alookup_assocRemove_none _ _ _ h)

theorem foldl_assocRemove_mem (frames : List DAPFrame) (l : List (Nat × Nat))
    (f : DAPFrame) (hf : f ∈ frames) :
    alookup (frames.foldl (fun m g => assocRemove m g.id) l) f.id = none := by
  induction frames generalizing l with
  | nil => cases hf
  | cons g rest ih =>
    rcases List.mem_cons.mp hf with rfl | hf'
    · exact foldl_assocRemove_preserves_none rest _ _ (alookup_assocRemove_self l f.id)
    · exact ih (assocRemove l g.id) hf'

/-- C6: a frame id, thread id or variables-reference id that does not
belong to the current snapshot tables makes `get_scopes`, `get_frames`
and `get_variables` return `none` (leaving the state untouched) rather
than raising — and disposing a pause's snapshot removes every one of
its frame ids from the frame-id table, so ids of a finished pause fall
into exactly this case. -/
theorem stale_ids_yield_none (s : DebuggerState) (fid ref tid : Nat)
    (hf : alookup s.frame_id_to_tid fid = none)
    (ht : alookup s.tid_to_stack_list tid = none)
    (hr : ∀ p ∈ s.tid_to_stack_list, alookup (p.2).ref_id_to_children ref = none) :
    get_scopes s fid = (none, s) ∧
    get_frames s tid = none ∧
    get_variables s ref = none ∧
    (∀ tid' si, alookup s.tid_to_stack_list tid' = some si →
      ∀ f ∈ si.dap_frames,
        alookup (dispose_stack_info s tid').frame_id_to_tid f.id = none) := by
  refine ⟨?_, ?_, ?_, ?_⟩
  · simp [get_scopes, hf]
  · simp [get_frames, ht]
  · exact find_variables_none s.tid_to_stack_list ref hr
  · intro tid' si hsi f hfr
    unfold dispose_stack_info
    rw [hsi]
    exact foldl_assocRemove_mem si.dap_frames s.frame_id_to_tid f hfr

/-- C6 witness: on a freshly reset debugger (no snapshot at all) the
three reads return `none` for arbitrary ids. -/
theorem stale_ids_yield_none_witness :
    get_scopes initial_state 42 = (none, initial_state) ∧
    get_frames initial_state 7 = none ∧
    get_variables initial_state 9 = none :=
  ⟨(stale_ids_yield_none initial_state 42 9 7 rfl rfl (by simp [initial_state, reset])).1,
   (stale_ids_yield_none initial_state 42 9 7 rfl rfl (by simp [initial_state, reset])).2.1,
   (stale_ids_yield_none initial_state 42 9 7 rfl rfl (by simp [initial_state, reset])).2.2.1⟩

/-! ## C2: step_next / step_out depth guarantees -/

theorem controller_action_preserves (s : DebuggerState) (a : ControllerAction) :
    (apply_controller_action s a).stack_ctx_entries = s.stack_ctx_entries := by
  cases a <;> rfl

theorem drain_preserves_stack (env : RobotEnv) (s : DebuggerState) :
    (drain_evaluations env s).stack_ctx_entries = s.stack_ctx_entries := by
  rw [drain_evaluations_eq]

theorem pause_loop_preserves_stack (env : RobotEnv) :
    ∀ (acts : List ControllerAction) (s : DebuggerState),
    (pause_loop env s acts).stack_ctx_entries = s.stack_ctx_entries
  | [], _ => rfl
  | a :: rest, s => by
    show (if (drain_evaluations env (apply_controller_action s a)).run_state
            = RunState.paused
          then pause_loop env (drain_evaluations env (apply_controller_action s a)) rest
          else drain_evaluations env (apply_controller_action s a)).stack_ctx_entries
        = s.stack_ctx_entries
    split
    · rw [pause_loop_preserves_stack env rest, drain_preserves_stack,
        controller_action_preserves]
    · rw [drain_preserves_stack, controller_action_preserves]

theorem compute_stop_preserves (s : DebuggerState) :
    (compute_stop_on_stack_len s).stack_ctx_entries = s.stack_ctx_entries ∧
    (compute_stop_on_stack_len s).step_cmd = s.step_cmd := by
  unfold compute_stop_on_stack_len
  split <;> exact ⟨rfl, rfl⟩

theorem compute_stop_spec (s : DebuggerState) :
    (s.step_cmd = some StepCmd.step_next →
      (compute_stop_on_stack_len s).stop_on_stack_len = s.stack_ctx_entries.length) ∧
    (s.step_cmd = some StepCmd.step_out →
      (compute_stop_on_stack_len s).stop_on_stack_len
        = s.stack_ctx_entries.length - 1) := by
  constructor <;> intro h <;> simp [compute_stop_on_stack_len, h]

theorem dispose_preserves (s : DebuggerState) (tid : Nat) :
    (dispose_stack_info s tid).stack_ctx_entries = s.stack_ctx_entries ∧
    (dispose_stack_info s tid).step_cmd = s.step_cmd ∧
    (dispose_stack_info s tid).stop_on_stack_len = s.stop_on_stack_len := by
  unfold dispose_stack_info
  split <;> exact ⟨rfl, rfl, rfl⟩

theorem wait_suspended_spec (env : RobotEnv) (s : DebuggerState) (reason : StopReason)
    (acts : List ControllerAction) :
    (wait_suspended env s reason acts).stack_ctx_entries = s.stack_ctx_entries ∧
    ((wait_suspended env s reason acts).step_cmd = some StepCmd.step_next →
      (wait_suspended env s reason acts).stop_on_stack_len
        = s.stack_ctx_entries.length) ∧
    ((wait_suspended env s reason acts).step_cmd = some StepCmd.step_out →
      (wait_suspended env s reason acts).stop_on_stack_len
        = s.stack_ctx_entries.length - 1) := by
  unfold wait_suspended
  set p := pause_loop env
    { create_stack_info s MAIN_THREAD_ID with
        run_state := RunState.paused, reason := some reason } acts with hp
  have hs3 : p.stack_ctx_entries = s.stack_ctx_entries := by
    rw [hp, pause_loop_preserves_stack]
    rfl
  have hd := dispose_preserves (compute_stop_on_stack_len p) MAIN_THREAD_ID
  have hc := compute_stop_preserves p
  have hcs := compute_stop_spec p
  refine ⟨?_, ?_, ?_⟩
  · rw [hd.1, hc.1, hs3]
  · intro h
    rw [hd.2.1, hc.2] at h
    rw [hd.2.2, hcs.1 h, hs3]
  · intro h
    rw [hd.2.1, hc.2] at h
    rw [hd.2.2, hcs.2 h, hs3]

theorem hook_preserves_cmd_stop (s : DebuggerState) (e : HookEvent) :
    ((apply_hook_event s e).1).step_cmd = s.step_cmd ∧
    ((apply_hook_event s e).1).stop_on_stack_len = s.stop_on_stack_len := by
  cases e <;> exact ⟨rfl, rfl⟩

theorem before_step_reason_step_bound (s : DebuggerState) (v : VarStore) (k : Keyword)
    (hcmd : s.step_cmd = some StepCmd.step_next ∨ s.step_cmd = some StepCmd.step_out)
    (h : (before_run_step s v k).2 = some StopReason.step) :
    ((before_run_step s v k).1).stack_ctx_entries.length ≤ s.stop_on_stack_len := by
  have hlen : ((before_run_step s v k).1).stack_ctx_entries.length
      = s.stack_ctx_entries.length + 1 := by simp [before_run_step]
  rw [hlen]
  by_cases hskip : s.skip_breakpoints ≠ 0
  · simp [before_run_step, hskip] at h
  · rcases hl : k.lineno with _ | line
    · simp [before_run_step, hskip, hl] at h
    · rcases hsrc : k.source with _ | src
      · simp [before_run_step, hskip, hl, hsrc] at h
      · by_cases hbp : lines_hit (alookup s.breakpoints (norm_source src)) line
        · simp [before_run_step, hskip, hl, hsrc, hbp] at h
        · by_cases hdep : s.stack_ctx_entries.length + 1 ≤ s.stop_on_stack_len
          · exact hdep
          · rcases hcmd with hcmdv | hcmdv <;>
              simp [before_run_step, hskip, hl, hsrc, hbp, hcmdv, hdep] at h

theorem hook_reason_of_pause (s : DebuggerState) (e : HookEvent) (t : DebuggerState)
    (hcmd : s.step_cmd = some StepCmd.step_next ∨ s.step_cmd = some StepCmd.step_out)
    (h : apply_hook_event s e = (t, some StopReason.step)) :
    t.stack_ctx_entries.length ≤ s.stop_on_stack_len := by
  cases e with
  | beforeStep v k =>
    have h1 : (before_run_step s v k).1 = t := congrArg Prod.fst h
    have h2 : (before_run_step s v k).2 = some StopReason.step := congrArg Prod.snd h
    rw [← h1]
    exact before_step_reason_step_bound s v k hcmd h2
  | afterStep => simp [apply_hook_event, Prod.ext_iff] at h
  | startSuite n src => simp [apply_hook_event, Prod.ext_iff] at h
  | endSuite => simp [apply_hook_event, Prod.ext_iff] at h
  | startTest n src l => simp [apply_hook_event, Prod.ext_iff] at h
  | endTest => simp [apply_hook_event, Prod.ext_iff] at h

theorem run_events_step_bound : ∀ (evs : List HookEvent) (s t : DebuggerState),
    (s.step_cmd = some StepCmd.step_next ∨ s.step_cmd = some StepCmd.step_out) →
    run_events s evs = (t, some StopReason.step) →
    t.stack_ctx_entries.length ≤ s.stop_on_stack_len
  | [], s, t, _, h => by simp [run_events, Prod.ext_iff] at h
  | e :: es, s, t, hcmd, h => by
    rcases he : apply_hook_event s e with ⟨s', r⟩
    rw [show run_events s (e :: es)
        = (match apply_hook_event s e with
           | (s', none) => run_events s' es
           | (s', some r) => (s', some r)) from rfl, he] at h
    cases r with
    | none =>
      have hp := hook_preserves_cmd_stop s e
      have hs' : s'.step_cmd = s.step_cmd := by rw [← hp.1, he]
      have hstop : s'.stop_on_stack_len = s.stop_on_stack_len := by rw [← hp.2, he]
      have hb := run_events_step_bound es s' t (by rw [hs']; exact hcmd) h
      rwa [hstop] at hb
    | some r0 =>
      injection h with h1 h2
      injection h2 with h3
      subst h1
      subst h3
      exact hook_reason_of_pause s e s' hcmd he

/-- C2: resuming a pause with `step_next()` while the live depth is D
records `stop_on_stack_len = D` and the next STEP-reason pause can
only occur at depth ≤ D; resuming with `step_out()` records D−1 and
the next STEP-reason pause can only occur at depth ≤ D−1. -/
theorem step_resume_depth_guarantee (env : RobotEnv) (s : DebuggerState)
    (reason : StopReason) (acts : List ControllerAction)
    (evs : List HookEvent) (t : DebuggerState) :
    ((wait_suspended env s reason acts).step_cmd = some StepCmd.step_next →
      (wait_suspended env s reason acts).stop_on_stack_len
        = s.stack_ctx_entries.length ∧
      (run_events (wait_suspended env s reason acts) evs = (t, some StopReason.step) →
        t.stack_ctx_entries.length ≤ s.stack_ctx_entries.length)) ∧
    ((wait_suspended env s reason acts).step_cmd = some StepCmd.step_out →
      (wait_suspended env s reason acts).stop_on_stack_len
        = s.stack_ctx_entries.length - 1 ∧
      (run_events (wait_suspended env s reason acts) evs = (t, some StopReason.step) →
        t.stack_ctx_entries.length ≤ s.stack_ctx_entries.length - 1)) := by
  have hspec := wait_suspended_spec env s reason acts
  constructor
  · intro h
    have hstop := hspec.2.1 h
    refine ⟨hstop, ?_⟩
    intro hrun
    have hb := run_events_step_bound evs (wait_suspended env s reason acts) t
      (Or.inl h) hrun
    rwa [hstop] at hb
  · intro h
    have hstop := hspec.2.2 h
    refine ⟨hstop, ?_⟩
    intro hrun
    have hb := run_events_step_bound evs (wait_suspended env s reason acts) t
      (Or.inr h) hrun
    rwa [hstop] at hb

/-- C2 witness: resuming the demo pause (live depth 3) with
`step_next()` records `stop_on_stack_len = 3`. -/
theorem step_resume_depth_guarantee_witness :
    (wait_suspended null_env demo_paused StopReason.breakpoint
      [ControllerAction.do_step_next]).stop_on_stack_len = 3 := by
  have h := (step_resume_depth_guarantee null_env demo_paused StopReason.breakpoint
      [ControllerAction.do_step_next] [] demo_paused).1 (by decide)
  exact h.1.trans (by decide)

end RobotDebugger
